import Mathlib

/-!
Verification of the core of the SVG→PNG converter
(`src-tauri/src/convert.rs`), shallowly embedded in Lean.

Modelling conventions:
* Rust `f64`/`f32` values are modelled as exact rationals; where the code
  tests finiteness of a float, the value is modelled by the variant type
  `F64` which also carries the non-finite IEEE values.  All concrete
  inputs used in counterexamples and witnesses are chosen so that the
  floating-point computation in the code is exact and agrees with the
  rational model.
* Rust `u32` values are modelled as `ℕ`; a cast `x as u32` from a
  nonnegative integral float uses Rust's saturating semantics
  (`u32cast`).
* Fallible functions return `Except String α`, mirroring
  `Result<α, String>`.
* Filesystem and rendering effects are supplied as explicit data
  (directory walks become lists of entries, per-item render outcomes
  become oracle values), so every definition is executable.
-/

namespace SvgToPng

/-- Pixel-area cap, `MAX_PIXELS` in convert.rs. -/
def MAX_PIXELS : ℕ := 80000000

/-- Model of an `f64` value: an exact finite rational, or one of the non-
finite IEEE values (the code only ever branches on finiteness and sign,
never on the bit pattern). -/
inductive F64 where
  | finite (q : ℚ)
  | nan
  | inf
  | negInf
deriving DecidableEq

/-- Rust `f64::is_finite`. -/
def F64.isFinite : F64 → Bool
  | .finite _ => true
  | _ => false

/-- Rust `x as u32` applied to a nonnegative integral float value (the only
shape the converter ever casts): truncation with saturation at `u32::MAX
= 4294967295`. -/
def u32cast (n : ℤ) : ℕ := min (max n 0).toNat 4294967295

/-- Structure `SvgSize` from convert.rs (integral width/height, `u32`
fields). -/
structure SvgSize where
  width : ℕ
  height : ℕ
deriving DecidableEq

/-- Structure `ConvertRequest` from convert.rs.  Field `scale` is an
`Option<f64>`; `width` and `height` are `Option<u32>`. -/
structure ConvertRequest where
  input_mode : String
  input_path : String
  output_dir : Option String
  size_mode : String
  scale : Option F64
  width : Option ℕ
  height : Option ℕ
  crop : Option Bool
  background : Option String

/-- Value `floor(sqrt(MAX_PIXELS))`.  The code computes `(MAX_PIXELS as
f64).sqrt().floor() as u32`; f64 square root is correctly rounded, and
on the constant 80000000 its floor equals the integer square root
`Nat.sqrt 80000000 = 8944`. -/
def maxSq : ℕ := Nat.sqrt MAX_PIXELS

/-- Value `(MAX_PIXELS as f64) / 1_000_000.0` as rendered by the `{:.0}`
format specifier: the division is exact (80.0) and prints as `80`. -/
def maxMp : ℕ := MAX_PIXELS / 1000000

/-- Message built by `enforce_pixel_cap` for `SizeLimitExceeded`.  The
separator between the two edge lengths reproduces the exact characters
present in the source string literal. -/
def capMessage : String :=
  s!"Too large. Max is ~{maxSq}Ã—{maxSq} ({maxMp}MP)."

/-- Function `enforce_pixel_cap` from convert.rs: `pixels = (w as u64)*(h as
u64)` never overflows for `u32` inputs, so plain natural multiplication
is the exact semantics. -/
def enforce_pixel_cap (w h : ℕ) : Except String Unit :=
  if w * h > MAX_PIXELS then .error capMessage else .ok ()

/-- Function `compute_output_size` from convert.rs.  In scale mode the code
runs `(src.width as f64 * s).round().max(1.0) as u32`; Rust `round` is
round-half-away-from-zero, which on the nonnegative products arising
here agrees with the `round` of Lean (half-up). -/
def compute_output_size (req : ConvertRequest) (src : SvgSize) :
    Except String (ℕ × ℕ) :=
  match req.size_mode with
  | "scale" =>
    match req.scale.getD (F64.finite 1) with
    | .finite s =>
      -- code: `if !s.is_finite() || s <= 0.0`; a finite value fails iff s ≤ 0
      if s ≤ 0 then .error "Scale must be a positive number."
      else
        .ok (u32cast (max (round ((src.width : ℚ) * s)) 1),
             u32cast (max (round ((src.height : ℚ) * s)) 1))
    | _ => .error "Scale must be a positive number."
  | "exact" =>
    match req.width with
    | none => .error "Width is required in Exact mode."
    | some w =>
      match req.height with
      | none => .error "Height is required in Exact mode."
      | some h =>
        if w = 0 ∨ h = 0 then .error "Width/Height must be positive numbers."
        else .ok (w, h)
  | _ => .error "Invalid size mode."

/-- Size clamp shared by `read_svg_size` and `render_one_with_stage`: from
the natural floating-point size of a document to the reported integral
`SvgSize`, via `x.ceil().max(1.0) as u32` on each axis. -/
def svgSizeOfNatural (w h : ℚ) : SvgSize :=
  { width := u32cast (max ⌈w⌉ 1), height := u32cast (max ⌈h⌉ 1) }

/-- A 2-D affine transform in `usvg::Transform` row order `(sx, ky, kx, sy,
tx, ty)`. -/
structure Transform where
  sx : ℚ
  ky : ℚ
  kx : ℚ
  sy : ℚ
  tx : ℚ
  ty : ℚ
deriving DecidableEq

/-- Constructor `usvg::Transform::from_row`. -/
def Transform.from_row (sx ky kx sy tx ty : ℚ) : Transform :=
  ⟨sx, ky, kx, sy, tx, ty⟩

/-- Constructor `usvg::Transform::from_scale`. -/
def Transform.from_scale (sx sy : ℚ) : Transform :=
  ⟨sx, 0, 0, sy, 0, 0⟩

/-- Transform selection of `render_one_with_stage` (lines 225-245):
`srcW`/`srcH` are the natural size of the document, `outW`/`outH` the
computed output size.  The code multiplies by `0.5`, which is exactly
division by two. -/
def build_transform (req : ConvertRequest) (srcW srcH outW outH : ℚ) :
    Transform :=
  if req.size_mode = "exact" ∧ req.crop.getD false then
    let scale := max (outW / srcW) (outH / srcH)
    let tx := (outW - srcW * scale) * (1 / 2)
    let ty := (outH - srcH * scale) * (1 / 2)
    Transform.from_row scale 0 0 scale tx ty
  else
    Transform.from_scale (outW / srcW) (outH / srcH)

/-- One hexadecimal digit, as accepted by `u8::from_str_radix(_, 16)`. -/
def hexDigit (c : Char) : Option ℕ :=
  if '0' ≤ c ∧ c ≤ '9' then some (c.toNat - '0'.toNat)
  else if 'a' ≤ c ∧ c ≤ 'f' then some (c.toNat - 'a'.toNat + 10)
  else if 'A' ≤ c ∧ c ≤ 'F' then some (c.toNat - 'A'.toNat + 10)
  else none

/-- Function `parse_bg_color` from convert.rs: trim, strip every leading
`#`, require exactly six hex digits, read three bytes.  (The code
measures the length in bytes and slices bytewise; on the ASCII inputs
the claims exercise, characters and bytes coincide.) -/
def parse_bg_color (bg : String) : Option (ℕ × ℕ × ℕ) :=
  let s := bg.trim.dropWhile (· = '#')
  match s.data with
  | [c1, c2, c3, c4, c5, c6] =>
    match hexDigit c1, hexDigit c2, hexDigit c3,
          hexDigit c4, hexDigit c5, hexDigit c6 with
    | some a1, some a2, some b1, some b2, some d1, some d2 =>
      some (16 * a1 + a2, 16 * b1 + b2, 16 * d1 + d2)
    | _, _, _, _, _, _ => none
  | _ => none

/-- Pixel data a finished plan would be rendered into: `some c` is an opaque
fill with color `c`, `none` a fully transparent fill. -/
structure RenderPlan where
  outW : ℕ
  outH : ℕ
  background : Option (ℕ × ℕ × ℕ)
  transform : Transform
deriving DecidableEq

/-- Background resolution of `render_one_with_stage` (lines 218-223):
`background.as_ref().map(trim).filter(nonempty)`, then `parse_bg_color`
must succeed. -/
def resolve_background (req : ConvertRequest) :
    Except String (Option (ℕ × ℕ × ℕ)) :=
  match req.background.map String.trim with
  | some s =>
    if s = "" then .ok none
    else
      match parse_bg_color s with
      | some c => .ok (some c)
      | none => .error "Invalid background color (expected #RRGGBB)."
  | none => .ok none

/-- Pure decision core of `render_one_with_stage` once the document has been
read and parsed with natural size `(natW, natH)`: compute the output
size, enforce the pixel cap, and only then (in the code: allocate the
pixmap,) resolve the background fill and derive the transform.  An error
from the cap check aborts before any plan - hence before any pixel-
buffer allocation - exists. -/
def render_plan (req : ConvertRequest) (natW natH : ℚ) :
    Except String RenderPlan :=
  match compute_output_size req (svgSizeOfNatural natW natH) with
  | .error e => .error e
  | .ok (outW, outH) =>
    match enforce_pixel_cap outW outH with
    | .error e => .error e
    | .ok _ =>
      -- `tiny_skia::Pixmap::new(out_w, out_h)` happens here in the code
      match resolve_background req with
      | .error e => .error e
      | .ok bg =>
        .ok { outW := outW, outH := outH, background := bg,
              transform := build_transform req natW natH (outW : ℚ) (outH : ℚ) }

/-- A concrete exact-mode request targeting 9000 by 9000, for the C1
witness. -/
def reqCap : ConvertRequest :=
  { input_mode := "file", input_path := "", output_dir := none,
    size_mode := "exact", scale := none, width := some 9000,
    height := some 9000, crop := none, background := none }

/-- A concrete exact-mode request with crop, for the C2 witness. -/
def reqCover : ConvertRequest :=
  { input_mode := "file", input_path := "", output_dir := none,
    size_mode := "exact", scale := none, width := some 100,
    height := some 100, crop := some true, background := none }

/-- A concrete scale-mode request, for the C2 witness. -/
def reqStretch : ConvertRequest :=
  { reqCover with size_mode := "scale", scale := some (F64.finite 1) }

/-- A concrete scale-mode request with the huge (f64-exact) factor 2^32, for
the C3 counterexample. -/
def reqHugeScale : ConvertRequest :=
  { input_mode := "file", input_path := "", output_dir := none,
    size_mode := "scale", scale := some (F64.finite 4294967296),
    width := none, height := none, crop := none, background := none }

/-- A concrete scale-mode request with factor 2, for the C3 witness. -/
def reqScale2 : ConvertRequest :=
  { reqHugeScale with scale := some (F64.finite 2) }

/-- A concrete scale-mode request with factor 0, for the C3 witness. -/
def reqScale0 : ConvertRequest :=
  { reqHugeScale with scale := some (F64.finite 0) }

/-- A concrete scale-mode request with no scale field, for the C8 witness. -/
def reqNoScale : ConvertRequest :=
  { reqHugeScale with scale := none }

/-- Structure `FolderSizeInfo` from convert.rs. -/
structure FolderSizeInfo where
  total : ℕ
  all_same : Bool
  base_size : Option SvgSize
  unique_sizes : List SvgSize
deriving DecidableEq

/-- One filesystem entry met by the recursive directory walk: whether it is
a regular file, its syntactic extension (`Path::extension`), and the
outcome `read_svg_size` produces when invoked on it (read and parse
effects are data of the embedding). -/
structure FsEntry where
  isFile : Bool
  ext : Option String
  svgData : Except String SvgSize

/-- ASCII lower-casing of one character, as `eq_ignore_ascii_case` folds. -/
def asciiLower (c : Char) : Char :=
  if 'A' ≤ c ∧ c ≤ 'Z' then Char.ofNat (c.toNat + 32) else c

/-- Rust `str::eq_ignore_ascii_case`. -/
def eqIgnoreAsciiCase (a b : String) : Bool :=
  a.data.map asciiLower == b.data.map asciiLower

/-- Function `is_svg` from convert.rs, on the syntactic extension of a path. -/
def extIsSvg : Option String → Bool
  | some s => eqIgnoreAsciiCase s "svg"
  | none => false

/-- Function `is_svg` applied to the extension of a walk entry. -/
def is_svg (e : FsEntry) : Bool :=
  extIsSvg e.ext

/-- Mutable loop state of `scan_svg_folder_sizes`. -/
structure ScanState where
  total : ℕ
  all_same : Bool
  base_size : Option SvgSize
  unique_sizes : List SvgSize
  keep_parsing : Bool
deriving DecidableEq

/-- Loop state before the first iteration. -/
def initScanState : ScanState :=
  { total := 0, all_same := true, base_size := none,
    unique_sizes := [], keep_parsing := true }

/-- The check `unique_sizes.iter().all(|u| u.width != sz.width || u.height
!= sz.height)` of the code: true when `sz` has not been recorded yet. -/
def notRecorded (l : List SvgSize) (sz : SvgSize) : Bool :=
  l.all fun u => u.width != sz.width || u.height != sz.height

/-- Trailing collect-unique-sizes block of the loop body (up to 6),
including its early-stop branch once 6 distinct sizes with more than one
distinct value have been collected. -/
def collectUnique (st : ScanState) (sz : SvgSize) : ScanState :=
  if notRecorded st.unique_sizes sz then
    let us := st.unique_sizes ++ [sz]
    if 6 ≤ us.length then
      if 1 < us.length then
        { st with unique_sizes := us, all_same := false, keep_parsing := false }
      else { st with unique_sizes := us }
    else { st with unique_sizes := us }
  else st

/-- One iteration of the `scan_svg_folder_sizes` walk loop over one
directory entry.  The loop first increments `total`, then - with `total`
already incremented - skips, aborts, or updates the classification
state; the intermediate binding of the incremented state in the code is
inlined into each branch here. -/
def scanStep (st : ScanState) (e : FsEntry) : Except String ScanState :=
  if ¬(e.isFile ∧ is_svg e) then .ok st
  else if ¬ st.keep_parsing then .ok { st with total := st.total + 1 }
  else
    match e.svgData with
    | .error msg => .error msg
    | .ok sz =>
      match st.base_size with
      | none =>
        .ok (collectUnique
          { st with total := st.total + 1, base_size := some sz } sz)
      | some bs =>
        if sz.width ≠ bs.width ∨ sz.height ≠ bs.height then
          .ok { st with
                total := st.total + 1,
                all_same := false,
                unique_sizes :=
                  if notRecorded st.unique_sizes sz then
                    st.unique_sizes ++ [sz]
                  else st.unique_sizes,
                keep_parsing := false }
        else .ok (collectUnique { st with total := st.total + 1 } sz)

/-- Walk loop of `scan_svg_folder_sizes`, sequencing `scanStep` with the
early return of the `?` on `read_svg_size`. -/
def scanLoop (st : ScanState) : List FsEntry → Except String ScanState
  | [] => .ok st
  | e :: rest =>
    match scanStep st e with
    | .error msg => .error msg
    | .ok st2 => scanLoop st2 rest

/-- Function `scan_svg_folder_sizes` from convert.rs: directory check, the
walk loop, then the final fix-up guaranteeing a uniform scan reports its
base size in `unique_sizes`. -/
def scan_svg_folder_sizes (isDir : Bool) (entries : List FsEntry) :
    Except String FolderSizeInfo :=
  if ¬ isDir then .error "Invalid folder path."
  else
    match scanLoop initScanState entries with
    | .error e => .error e
    | .ok st =>
      let us :=
        if st.all_same then
          match st.base_size with
          | some bs => if st.unique_sizes.isEmpty then [bs] else st.unique_sizes
          | none => st.unique_sizes
        else st.unique_sizes
      .ok { total := st.total, all_same := st.all_same,
            base_size := st.base_size, unique_sizes := us }

/-- Sizes a scan in state `st` reads at entry `e`: the size of an entry is
read exactly when the walk reaches it as an SVG file while
`keep_parsing` still holds (a failing read then aborts the scan). -/
def parsedHead (st : ScanState) (e : FsEntry) : List SvgSize :=
  if e.isFile ∧ is_svg e ∧ st.keep_parsing then
    match e.svgData with
    | .ok sz => [sz]
    | .error _ => []
  else []

/-- All sizes actually read by a scan starting in state `st`, in walk order. -/
def parsedSizesFrom (st : ScanState) : List FsEntry → List SvgSize
  | [] => []
  | e :: rest =>
    match scanStep st e with
    | .error _ => parsedHead st e
    | .ok st2 => parsedHead st e ++ parsedSizesFrom st2 rest

/-- All sizes actually read by `scan_svg_folder_sizes` on `entries`. -/
def parsedSizes (entries : List FsEntry) : List SvgSize :=
  parsedSizesFrom initScanState entries

/-- Number of walk entries that are files with a case-insensitive `svg`
extension. -/
def countSvg (entries : List FsEntry) : ℕ :=
  (entries.filter fun e => e.isFile && is_svg e).length

/-- All members of the list are equal to each other. -/
def allEqual (l : List SvgSize) : Prop := ∀ a ∈ l, ∀ b ∈ l, a = b

/-- A 50 by 50 SVG file entry, for the C4/C9 scenario. -/
def entry50 : FsEntry :=
  { isFile := true, ext := some "svg", svgData := .ok ⟨50, 50⟩ }

/-- A 60 by 60 SVG file entry, for the C4/C9 scenario. -/
def entry60 : FsEntry :=
  { isFile := true, ext := some "svg", svgData := .ok ⟨60, 60⟩ }

/-- A third SVG file entry whose read outcome is an error: the scan can
return successfully with it in the tree only if it never parses it. -/
def entryThird : FsEntry :=
  { isFile := true, ext := some "SVG", svgData := .error "unreadable" }

/-- The C4/C9 scenario tree: 50 by 50, then 60 by 60, then a third SVG. -/
def scenarioEntries : List FsEntry := [entry50, entry60, entryThird]

/-- Report the scenario scan produces. -/
def scenarioInfo : FolderSizeInfo :=
  { total := 3, all_same := false, base_size := some ⟨50, 50⟩,
    unique_sizes := [⟨50, 50⟩, ⟨60, 60⟩] }

/-- Inductive invariant of the scan loop, relating the loop state to the
list `acc` of sizes read so far: the base size is the first size read;
while the scan is still uniform it keeps parsing, its unique list is
exactly the base (or empty before any read), and everything read equals
the base; once non-uniform it has stopped parsing, the read sizes are
not all equal, and the unique list is exactly the base followed by the
first differing size. -/
structure ScanInv (st : ScanState) (acc : List SvgSize) : Prop where
  base_head : st.base_size = acc.head?
  uniform_keep : st.all_same = true → st.keep_parsing = true
  uniform_unique : st.all_same = true → ∀ bs, st.base_size = some bs →
    st.unique_sizes = [bs]
  base_none : st.base_size = none → st.unique_sizes = [] ∧ st.all_same = true
  uniform_all : st.all_same = true → ∀ bs, st.base_size = some bs →
    ∀ a ∈ acc, a = bs
  nonuniform : st.all_same = false → st.keep_parsing = false ∧
    ¬ allEqual acc ∧ ∃ a b, a ≠ b ∧ st.unique_sizes = [a, b]

/-- Loop state after the three scenario entries. -/
def scanState3 : ScanState :=
  { total := 3, all_same := false, base_size := some ⟨50, 50⟩,
    unique_sizes := [⟨50, 50⟩, ⟨60, 60⟩], keep_parsing := false }

/-- Structure `ConvertSummary` from convert.rs. -/
structure ConvertSummary where
  total : ℕ
  ok : ℕ
  failed : ℕ
deriving DecidableEq

/-- An event emitted to the host window by the batch loop of
`convert_svg_to_png`: a `convert-progress` event or a `convert-item`
event.  (The interim stage events relayed concurrently from the worker
channel are part of the stage-relay concurrency, not of the sequential
loop modelled here; for an empty batch none exist at all.) -/
inductive BatchEvent where
  | progress (phase : String) (current : ℕ) (active : Option ℕ)
      (total : ℕ) (ok : ℕ) (failed : ℕ) (lastSvg : Option String)
  | item (index : ℕ) (total : ℕ) (svg : String) (png : String)
      (outW : Option ℕ) (outH : Option ℕ) (ok : Bool)
      (engine : Option String) (error : Option String)
deriving DecidableEq

/-- One resolved batch input together with the outcome its conversion work
(`render_one_with_stage`, an I/O action) produces on it: the rendering
result enters the embedding as data. -/
structure BatchItem where
  path : String
  result : Except String (String × ℕ × ℕ)

/-- One entry of the folder-mode directory walk. -/
structure WalkEntry where
  path : String
  isFile : Bool
  ext : Option String

/-- Filesystem and rendering environment one batch run interacts with:
whether the input path is a directory, the folder walk entries, which
path strings name regular files, their syntactic extensions, and the
outcome the per-item conversion work produces on each path. -/
structure BatchEnv where
  inputIsDir : Bool
  walk : List WalkEntry
  isFile : String → Bool
  extOf : String → Option String
  render : String → Except String (String × ℕ × ℕ)

/-- The `svgs.sort()` on paths. -/
def sortStrings (l : List String) : List String :=
  l.mergeSort fun a b => decide (a ≤ b)

/-- Input resolution of `convert_svg_to_png` (lines 396-420): folder mode
walks and sorts; file mode validates the provided path list, or falls
back to the single `input_path`. -/
def resolveInputs (req : ConvertRequest) (input_paths : Option (List String))
    (env : BatchEnv) : Except String (List String) :=
  if req.input_mode = "folder" then
    .ok (sortStrings
      ((env.walk.filter fun e => e.isFile && extIsSvg e.ext).map WalkEntry.path))
  else
    match input_paths.getD [] with
    | [] =>
      if env.isFile req.input_path && extIsSvg (env.extOf req.input_path) then
        .ok [req.input_path]
      else .error "Invalid SVG file path."
    | p :: ps =>
      if (p :: ps).all fun q => env.isFile q && extIsSvg (env.extOf q) then
        .ok (p :: ps)
      else .error "Invalid SVG file path."

/-- Batch loop of `convert_svg_to_png` (lines 439-532): for each item in
order, the conversion outcome increments exactly one of the two
counters, the item event and then the done progress event are emitted,
and the loop continues regardless of the outcome.  `i` is the number of
items already processed; the returned triple is the final `(ok, failed)`
counters and the emitted events in order. -/
def batchLoop (total : ℕ) : List BatchItem → ℕ → ℕ → ℕ →
    ℕ × ℕ × List BatchEvent
  | [], _, ok, failed => (ok, failed, [])
  | it :: rest, i, ok, failed =>
    match it.result with
    | .ok (png, w, h) =>
      let ev1 := BatchEvent.item (i + 1) total it.path png (some w) (some h)
        true (some "resvg") none
      let ev2 := BatchEvent.progress "done" (i + 1) none total (ok + 1)
        failed (some it.path)
      let r := batchLoop total rest (i + 1) (ok + 1) failed
      (r.1, r.2.1, ev1 :: ev2 :: r.2.2)
    | .error err =>
      let ev1 := BatchEvent.item (i + 1) total it.path "" none none
        false (some "resvg") (some err)
      let ev2 := BatchEvent.progress "done" (i + 1) none total ok
        (failed + 1) (some it.path)
      let r := batchLoop total rest (i + 1) ok (failed + 1)
      (r.1, r.2.1, ev1 :: ev2 :: r.2.2)

/-- Up-front background validation of `convert_svg_to_png` (lines 388-392):
a supplied, non-empty (after trim) background string that does not parse
is invalid. -/
def bgInvalid (bg : Option String) : Bool :=
  match bg.map String.trim with
  | some s => s != "" && (parse_bg_color s).isNone
  | none => false

/-- Command `convert_svg_to_png` from convert.rs: folder validation,
background validation, input resolution, the start progress event, the
batch loop, and the final summary. -/
def convert_svg_to_png (req : ConvertRequest)
    (input_paths : Option (List String)) (env : BatchEnv) :
    Except String (ConvertSummary × List BatchEvent) :=
  if req.input_mode = "folder" ∧ env.inputIsDir = false then
    .error "Invalid folder path."
  else if bgInvalid req.background then
    .error "Invalid background color (expected #RRGGBB)."
  else
    match resolveInputs req input_paths env with
    | .error e => .error e
    | .ok svgs =>
      let total := svgs.length
      let startEv := BatchEvent.progress "start" 0 none total 0 0 none
      let items := svgs.map fun p => BatchItem.mk p (env.render p)
      let r := batchLoop total items 0 0 0
      .ok (⟨total, r.1, r.2.1⟩, startEv :: r.2.2)

/-- Number of items whose conversion outcome is a success. -/
def okCount (items : List BatchItem) : ℕ :=
  (items.filter fun it =>
    match it.result with
    | .ok _ => true
    | .error _ => false).length

/-- Number of items whose conversion outcome is a failure. -/
def failCount (items : List BatchItem) : ℕ :=
  (items.filter fun it =>
    match it.result with
    | .ok _ => false
    | .error _ => true).length

/-- A two-item environment for the C5 witness: one success, one failure. -/
def envTwo : BatchEnv :=
  { inputIsDir := false, walk := [],
    isFile := fun _ => true,
    extOf := fun _ => some "svg",
    render := fun p =>
      if p = "a.svg" then .ok ("a_10x10.png", 10, 10) else .error "boom" }

/-- A file-mode request for the C5 witness. -/
def reqTwo : ConvertRequest :=
  { input_mode := "file", input_path := "a.svg", output_dir := none,
    size_mode := "scale", scale := some (F64.finite 1), width := none,
    height := none, crop := none, background := none }

/-- Summary the two-item batch returns. -/
def summaryTwo : ConvertSummary := ⟨2, 1, 1⟩

/-- Event stream the two-item batch emits. -/
def eventsTwo : List BatchEvent :=
  [BatchEvent.progress "start" 0 none 2 0 0 none,
   BatchEvent.item 1 2 "a.svg" "a_10x10.png" (some 10) (some 10) true
     (some "resvg") none,
   BatchEvent.progress "done" 1 none 2 1 0 (some "a.svg"),
   BatchEvent.item 2 2 "b.svg" "" none none false (some "resvg")
     (some "boom"),
   BatchEvent.progress "done" 2 none 2 1 1 (some "b.svg")]

/-- A non-empty, SVG-free directory for the C10 witness. -/
def envNoSvg : BatchEnv :=
  { inputIsDir := true,
    walk := [⟨"root/readme.txt", true, some "txt"⟩, ⟨"root/sub", false, none⟩],
    isFile := fun _ => false, extOf := fun _ => none,
    render := fun _ => .error "unused" }

/-- A folder-mode request for the C10 witness. -/
def reqFolder : ConvertRequest :=
  { input_mode := "folder", input_path := "root", output_dir := none,
    size_mode := "scale", scale := none, width := none, height := none,
    crop := none, background := none }

/-- A filesystem path: directory segments plus a file name.  The converter
manipulates paths only through `file_stem`, `strip_prefix`, `parent`,
the parent name, `join` and `with_file_name`, all of which this segment
representation captures; segments are assumed to be ordinary components
(no separators inside a segment). -/
structure RPath where
  dirs : List String
  fileName : String
deriving DecidableEq

/-- Rust `Path::file_stem` on a file name: the portion before the last dot;
a name with no dot, or whose only dot is a leading one, is its own stem. -/
def file_stem (name : String) : String :=
  match (name.data.reverse.dropWhile fun c => c ≠ '.') with
  | [] => name
  | _ :: beforeRev =>
    if beforeRev.isEmpty then name
    else String.mk beforeRev.reverse

/-- The `file_stem().and_then(to_str).unwrap_or("output")` of
`make_output_path`; the empty string models a path with no file-name
component. -/
def stemOr (name : String) : String :=
  if name = "" then "output" else file_stem name

/-- File-name format `<stem>_<w>x<h>.png` of `make_output_path`. -/
def pngName (base : String) (out_w out_h : ℕ) : String :=
  s!"{base}_{out_w}x{out_h}.png"

/-- Function `make_output_path` from convert.rs, on the segment
representation.  The code joins the relative parent components with the
path separator and then replaces every `/` and `\` with `_`; on
separator-free components that equals joining the components directly
with `_`, which is how the join is written here (the emptiness and `"."`
guards coincide on such components as well). -/
def make_output_path (svg : RPath) (root : Option (List String))
    (out_dir : Option (List String)) (out_w out_h : ℕ) : RPath :=
  let base := stemOr svg.fileName
  let file_name := pngName base out_w out_h
  let relA :=
    match root with
    | some r =>
      if svg.dirs.take r.length = r then
        let p := String.intercalate "_" (svg.dirs.drop r.length)
        if p ≠ "" ∧ p ≠ "." then p else ""
      else ""
    | none => ""
  let relB :=
    if relA = "" ∧ root = none ∧ out_dir.isSome then
      match svg.dirs.getLast? with
      | some parentName => parentName
      | none => ""
    else relA
  let final_name := if relB = "" then file_name else relB ++ "_" ++ file_name
  match out_dir with
  | some d => { dirs := d, fileName := final_name }
  | none => { dirs := svg.dirs, fileName := final_name }

/-- Equation `Nat.sqrt 80000000 = 8944`, via the square-root
characterization (the recursor of `Nat.sqrt` does not reduce in the
kernel). -/
theorem maxSq_eq : maxSq = 8944 := by
  have h1 : 8944 ≤ Nat.sqrt 80000000 := Nat.le_sqrt.mpr (by norm_num)
  have h2 : Nat.sqrt 80000000 < 8945 := Nat.sqrt_lt.mpr (by norm_num)
  unfold maxSq MAX_PIXELS
  omega

/-- Concrete rendering of the cap message. -/
theorem capMessage_eq :
    capMessage = "Too large. Max is ~8944Ã—8944 (80MP)." := by
  rw [capMessage, maxSq_eq]
  rfl

/-- Saturating cast of an in-range value. -/
theorem u32cast_small {n : ℤ} (h0 : 0 ≤ n) (h : n ≤ 4294967295) :
    u32cast n = n.toNat := by
  unfold u32cast; omega

/-- Saturating cast of an over-range value. -/
theorem u32cast_large {n : ℤ} (h : 4294967295 ≤ n) :
    u32cast n = 4294967295 := by
  unfold u32cast; omega

/-- C1: for every requested target size `(w, h)`, the conversion fails with
the `SizeLimitExceeded` message - before any pixel buffer is allocated,
i.e. before a `RenderPlan` exists - exactly when `w*h > 80000000`; `w*h
= 80000000` exactly is accepted; and the failure message reports the
maximum square edge `floor(sqrt(80000000)) = 8944` and the cap in
megapixels (80MP). -/
theorem c1_pixel_cap (w h : ℕ) :
    (enforce_pixel_cap w h = .error capMessage ↔ MAX_PIXELS < w * h) ∧
    (w * h ≤ MAX_PIXELS → enforce_pixel_cap w h = .ok ()) ∧
    capMessage = "Too large. Max is ~8944Ã—8944 (80MP)." ∧
    maxSq = Nat.sqrt 80000000 ∧ maxSq = 8944 ∧ maxMp = 80 ∧
    (∀ (req : ConvertRequest) (natW natH : ℚ) (outW outH : ℕ),
      compute_output_size req (svgSizeOfNatural natW natH) = .ok (outW, outH) →
      MAX_PIXELS < outW * outH →
      render_plan req natW natH = .error capMessage) := by
  refine ⟨?_, ?_, capMessage_eq, rfl, maxSq_eq, rfl, ?_⟩
  · by_cases hlt : MAX_PIXELS < w * h <;> simp [enforce_pixel_cap, hlt]
  · intro hle
    simp [enforce_pixel_cap, Nat.not_lt.mpr hle]
  · intro req natW natH outW outH hc hcap
    have hcapErr : enforce_pixel_cap outW outH = .error capMessage := by
      simp [enforce_pixel_cap, hcap]
    simp only [render_plan, hc, hcapErr]

/-- Witness for C1: a 9000 by 9000 (81MP) target is rejected with the cap
message, 8944 by 8944 and an exactly-80MP 8000 by 10000 target are
accepted, and a request computing to 9000 by 9000 fails before a render
plan exists. -/
theorem c1_pixel_cap_witness :
    enforce_pixel_cap 9000 9000 = .error capMessage ∧
    enforce_pixel_cap 8944 8944 = .ok () ∧
    enforce_pixel_cap 8000 10000 = .ok () ∧
    render_plan reqCap 10 10 = .error capMessage := by
  refine ⟨((c1_pixel_cap 9000 9000).1).mpr (by norm_num [MAX_PIXELS]),
          (c1_pixel_cap 8944 8944).2.1 (by norm_num [MAX_PIXELS]),
          (c1_pixel_cap 8000 10000).2.1 (by norm_num [MAX_PIXELS]),
          (c1_pixel_cap 0 0).2.2.2.2.2.2 reqCap 10 10 9000 9000 (by rfl)
            (by norm_num [MAX_PIXELS])⟩

/-- C2: with positive source size, exact mode with crop=true rasterizes
through the uniform cover transform `[s,0,0,s,tx,ty]` with `s =
max(targetW/srcW, targetH/srcH)`, `tx = (targetW - srcW*s)/2`, `ty =
(targetH - srcH*s)/2`; scale mode, and exact mode when crop is false or
absent, rasterize through the stretch transform `[targetW/srcW, 0, 0,
targetH/srcH, 0, 0]`. -/
theorem c2_transform (req : ConvertRequest) (srcW srcH outW outH : ℚ)
    (hsw : 0 < srcW) (hsh : 0 < srcH) :
    (req.size_mode = "exact" → req.crop.getD false = true →
      build_transform req srcW srcH outW outH =
        Transform.from_row (max (outW / srcW) (outH / srcH)) 0 0
          (max (outW / srcW) (outH / srcH))
          ((outW - srcW * max (outW / srcW) (outH / srcH)) / 2)
          ((outH - srcH * max (outW / srcW) (outH / srcH)) / 2)) ∧
    ((req.size_mode = "scale" ∨ req.crop.getD false = false) →
      build_transform req srcW srcH outW outH =
        Transform.from_row (outW / srcW) 0 0 (outH / srcH) 0 0) := by
  constructor
  · intro hm hc
    rw [build_transform, if_pos ⟨hm, by rw [hc]⟩]
    rw [Transform.from_row, Transform.from_row]
    norm_num
    constructor <;> ring
  · intro h
    have hcond : ¬(req.size_mode = "exact" ∧ req.crop.getD false = true) := by
      rcases h with h | h
      · intro ⟨he, _⟩; rw [h] at he; exact absurd he (by decide)
      · intro ⟨_, hc⟩; rw [h] at hc; exact absurd hc (by decide)
    rw [build_transform, if_neg (by simpa using hcond)]
    rfl

/-- Witness for C2: a 300 by 100 source at exact 100 by 100 with crop yields
scale 1 and translation (-100, 0); the same geometry in scale mode
yields the stretch transform (1/3, 0, 0, 1, 0, 0). -/
theorem c2_transform_witness :
    build_transform reqCover 300 100 100 100 =
      Transform.from_row 1 0 0 1 (-100) 0 ∧
    build_transform reqStretch 300 100 100 100 =
      Transform.from_row (1 / 3) 0 0 1 0 0 := by
  constructor
  · have h := (c2_transform reqCover 300 100 100 100 (by norm_num)
      (by norm_num)).1 rfl rfl
    rw [h, max_eq_right (by norm_num : (100 : ℚ) / 300 ≤ 100 / 100)]
    simp only [Transform.from_row, Transform.mk.injEq]
    norm_num
  · have h := (c2_transform reqStretch 300 100 100 100 (by norm_num)
      (by norm_num)).2 (Or.inl rfl)
    rw [h]
    simp only [Transform.from_row, Transform.mk.injEq]
    norm_num

/-- Saturating cast of any nonnegative value. -/
theorem u32cast_of_nonneg {n : ℤ} (h : 0 ≤ n) :
    u32cast n = min n.toNat 4294967295 := by
  unfold u32cast; omega

/-- C3 counterexample: at source size 1 by 1 with the finite, strictly
positive scale factor 2^32 (exactly representable in f64, so the float
computation in the code is exact), the code returns width 4294967295 -
the `as u32` cast saturates - while the claimed formula
`max(round(srcW*s), 1)` yields 4294967296. -/
theorem c3_counterexample :
    compute_output_size reqHugeScale ⟨1, 1⟩ = .ok (4294967295, 4294967295) ∧
    (max (round ((1 : ℚ) * 4294967296)) 1).toNat = 4294967296 ∧
    (4294967295 : ℕ) ≠ 4294967296 := by
  refine ⟨?_, ?_, by norm_num⟩
  · have hr : round ((1 : ℚ) * 4294967296) = 4294967296 := by norm_num
    simp [compute_output_size, reqHugeScale, hr]
    rw [if_neg (by norm_num), u32cast_large (by norm_num)]
  · rw [show round ((1 : ℚ) * 4294967296) = 4294967296 by norm_num]
    omega

/-- C3 (amended): in scale mode with a provided finite, strictly positive
factor `s`, the output is `min(max(round(srcW*s), 1), 4294967295)` per
axis - the claimed formula additionally saturated at `u32::MAX` by the
`as u32` cast; a provided factor that is non-finite or not strictly
positive fails with the `InvalidInput` message about the scale. -/
theorem c3_amended (req : ConvertRequest) (src : SvgSize)
    (hmode : req.size_mode = "scale") :
    (∀ s : ℚ, req.scale = some (F64.finite s) → 0 < s →
      compute_output_size req src =
        .ok (min (max (round ((src.width : ℚ) * s)) 1).toNat 4294967295,
             min (max (round ((src.height : ℚ) * s)) 1).toNat 4294967295)) ∧
    (∀ v : F64, req.scale = some v → (∀ q : ℚ, v = F64.finite q → q ≤ 0) →
      compute_output_size req src =
        .error "Scale must be a positive number.") := by
  constructor
  · intro s hs hpos
    simp only [compute_output_size, hmode, hs, Option.getD_some]
    rw [if_neg (not_le.mpr hpos)]
    rw [u32cast_of_nonneg (le_trans zero_le_one (le_max_right _ _)),
        u32cast_of_nonneg (le_trans zero_le_one (le_max_right _ _))]
  · intro v hv hnp
    cases v with
    | finite q =>
      have hq : q ≤ 0 := hnp q rfl
      simp only [compute_output_size, hmode, hv, Option.getD_some]
      rw [if_pos hq]
    | nan => simp only [compute_output_size, hmode, hv, Option.getD_some]
    | inf => simp only [compute_output_size, hmode, hv, Option.getD_some]
    | negInf => simp only [compute_output_size, hmode, hv, Option.getD_some]

/-- Witness for the amended C3: a 100 by 100 source at factor 2 yields 200
by 200, and factor 0 fails with the scale message. -/
theorem c3_amended_witness :
    compute_output_size reqScale2 ⟨100, 100⟩ = .ok (200, 200) ∧
    compute_output_size reqScale0 ⟨100, 100⟩ =
      .error "Scale must be a positive number." := by
  constructor
  · have h := (c3_amended reqScale2 ⟨100, 100⟩ rfl).1 2 rfl (by norm_num)
    rw [h]
    have hr : round ((100 : ℚ) * 2) = 200 := by norm_num
    simp only [hr]
    norm_num
    decide
  · refine (c3_amended reqScale0 ⟨100, 100⟩ rfl).2 (F64.finite 0) rfl ?_
    intro q hq
    injection hq with h
    rw [← h]

/-- C7 counterexample: a document whose natural width is 2^32 (exactly
representable in f32) is reported with width 4294967295 - the `as u32`
cast saturates - while the claimed `ceil(w)` floored at 1 is 4294967296. -/
theorem c7_counterexample :
    svgSizeOfNatural 4294967296 4294967296 = ⟨4294967295, 4294967295⟩ ∧
    (max ⌈(4294967296 : ℚ)⌉ 1).toNat = 4294967296 ∧
    (4294967295 : ℕ) ≠ 4294967296 := by
  refine ⟨by rfl, ?_, by norm_num⟩
  rw [show ⌈(4294967296 : ℚ)⌉ = 4294967296 by norm_num]
  omega

/-- C7 (amended): the reported intrinsic size is `min(max(ceil(dim), 1),
4294967295)` per axis - the claimed ceiling floored at 1, additionally
saturated at `u32::MAX` by the `as u32` cast - and both reported
dimensions are always at least 1. -/
theorem c7_amended (w h : ℚ) :
    svgSizeOfNatural w h =
      ⟨min (max ⌈w⌉ 1).toNat 4294967295,
       min (max ⌈h⌉ 1).toNat 4294967295⟩ ∧
    1 ≤ (svgSizeOfNatural w h).width ∧ 1 ≤ (svgSizeOfNatural w h).height := by
  have hw : u32cast (max ⌈w⌉ 1) = min (max ⌈w⌉ 1).toNat 4294967295 := by
    unfold u32cast; omega
  have hh : u32cast (max ⌈h⌉ 1) = min (max ⌈h⌉ 1).toNat 4294967295 := by
    unfold u32cast; omega
  refine ⟨?_, ?_, ?_⟩
  · simp [svgSizeOfNatural, hw, hh]
  · simp [svgSizeOfNatural, u32cast]
  · simp [svgSizeOfNatural, u32cast]

/-- C8: in scale mode with the scale field absent the computation does not
fail: the factor defaults to 1 and (for any in-range intrinsic size,
each axis at least 1) the output equals the intrinsic size. -/
theorem c8_default_scale (req : ConvertRequest) (src : SvgSize)
    (hmode : req.size_mode = "scale") (hscale : req.scale = none)
    (hw1 : 1 ≤ src.width) (hh1 : 1 ≤ src.height)
    (hw2 : src.width ≤ 4294967295) (hh2 : src.height ≤ 4294967295) :
    compute_output_size req src = .ok (src.width, src.height) := by
  simp only [compute_output_size, hmode, hscale, Option.getD_none]
  rw [if_neg (by norm_num)]
  have hrw : round ((src.width : ℚ) * 1) = (src.width : ℤ) := by
    rw [mul_one, round_natCast]
  have hrh : round ((src.height : ℚ) * 1) = (src.height : ℤ) := by
    rw [mul_one, round_natCast]
  rw [hrw, hrh]
  rw [max_eq_left (by exact_mod_cast hw1), max_eq_left (by exact_mod_cast hh1)]
  rw [u32cast_small (by positivity) (by exact_mod_cast hw2),
      u32cast_small (by positivity) (by exact_mod_cast hh2)]
  simp

/-- Witness for C8: a 37 by 64 intrinsic size with no scale field passes
through unchanged. -/
theorem c8_default_scale_witness :
    compute_output_size reqNoScale ⟨37, 64⟩ = .ok (37, 64) :=
  c8_default_scale reqNoScale ⟨37, 64⟩ rfl rfl (by norm_num) (by norm_num)
    (by norm_num) (by norm_num)

/-- Two sizes differing in a dimension are different values. -/
theorem SvgSize.ne_of_dims {a b : SvgSize}
    (h : a.width ≠ b.width ∨ a.height ≠ b.height) : a ≠ b := by
  intro he
  cases he
  rcases h with h | h <;> exact h rfl

/-- Two sizes agreeing in both dimensions are equal. -/
theorem SvgSize.eq_of_dims {a b : SvgSize}
    (h : ¬(a.width ≠ b.width ∨ a.height ≠ b.height)) : a = b := by
  push_neg at h
  cases a
  cases b
  simp only [SvgSize.mk.injEq]
  exact h

/-- The invariant holds before the first iteration. -/
theorem scanInv_init : ScanInv initScanState [] := by
  constructor <;> simp [initScanState, allEqual]

/-- One loop iteration preserves the invariant, extending the read list by
whatever the iteration read. -/
theorem scanStep_inv {st : ScanState} {acc : List SvgSize} {e : FsEntry}
    {st2 : ScanState} (hinv : ScanInv st acc)
    (hstep : scanStep st e = .ok st2) :
    ScanInv st2 (acc ++ parsedHead st e) := by
  unfold scanStep at hstep
  unfold parsedHead
  by_cases hsvg : e.isFile ∧ is_svg e
  case neg =>
    rw [if_pos hsvg] at hstep
    injection hstep with h
    subst h
    rw [if_neg fun hc => hsvg ⟨hc.1, hc.2.1⟩, List.append_nil]
    exact hinv
  case pos =>
    rw [if_neg (not_not_intro hsvg)] at hstep
    by_cases hkeep : st.keep_parsing = true
    case neg =>
      rw [if_pos hkeep] at hstep
      injection hstep with h
      subst h
      rw [if_neg fun hc => hkeep hc.2.2, List.append_nil]
      exact ⟨hinv.base_head, hinv.uniform_keep, hinv.uniform_unique,
             hinv.base_none, hinv.uniform_all, hinv.nonuniform⟩
    case pos =>
      rw [if_neg (not_not_intro hkeep)] at hstep
      rw [if_pos ⟨hsvg.1, hsvg.2, hkeep⟩]
      cases hdata : e.svgData with
      | error msg =>
        rw [hdata] at hstep
        simp at hstep
      | ok sz =>
        rw [hdata] at hstep
        show ScanInv st2 (acc ++ [sz])
        cases hbase : st.base_size with
        | none =>
          simp only [hbase, Except.ok.injEq] at hstep
          obtain ⟨hu, ha⟩ := hinv.base_none hbase
          have hacc : acc = [] := by
            have hh := hinv.base_head
            rw [hbase] at hh
            cases acc with
            | nil => rfl
            | cons x t => simp at hh
          have hcu : collectUnique
              { st with total := st.total + 1, base_size := some sz } sz
              = { st with
                  total := st.total + 1
                  base_size := some sz
                  unique_sizes := [sz] } := by
            unfold collectUnique
            simp [notRecorded, hu]
          rw [hcu] at hstep
          subst hstep
          subst hacc
          refine ⟨by simp, fun _ => hkeep, ?_, ?_, ?_, ?_⟩
          · intro _ bs hbs
            injection hbs with hb
            show [sz] = [bs]
            rw [hb]
          · intro hb
            exact Option.noConfusion hb
          · intro _ bs hbs a hmem
            simp at hmem
            injection hbs with hb
            rw [hmem, ← hb]
          · intro hfalse
            have hf : st.all_same = false := hfalse
            rw [ha] at hf
            exact Bool.noConfusion hf
        | some bs =>
          simp only [hbase] at hstep
          have hall : st.all_same = true := by
            cases hallc : st.all_same with
            | true => rfl
            | false =>
              have hkf := (hinv.nonuniform hallc).1
              rw [hkf] at hkeep
              exact Bool.noConfusion hkeep
          have huniq : st.unique_sizes = [bs] :=
            hinv.uniform_unique hall bs hbase
          obtain ⟨t, hacc⟩ : ∃ t, acc = bs :: t := by
            have hh := hinv.base_head
            rw [hbase] at hh
            cases acc with
            | nil => simp at hh
            | cons x t =>
              simp at hh
              exact ⟨t, by rw [hh]⟩
          by_cases hne : sz.width ≠ bs.width ∨ sz.height ≠ bs.height
          case pos =>
            rw [if_pos hne] at hstep
            have hnr : notRecorded st.unique_sizes sz = true := by
              rw [huniq]
              simp only [notRecorded, List.all_cons, List.all_nil,
                Bool.and_true, Bool.or_eq_true, bne_iff_ne]
              rcases hne with h | h
              · exact Or.inl (Ne.symm h)
              · exact Or.inr (Ne.symm h)
            rw [hnr] at hstep
            simp only [if_true, huniq, Except.ok.injEq] at hstep
            subst hstep
            have hnesz : bs ≠ sz := fun h => SvgSize.ne_of_dims hne h.symm
            refine ⟨?_, ?_, ?_, ?_, ?_, ?_⟩
            · show some bs = (acc ++ [sz]).head?
              rw [hacc]
              rfl
            · intro htrue
              exact Bool.noConfusion htrue
            · intro htrue
              exact Bool.noConfusion htrue
            · intro hnone
              exact Option.noConfusion hnone
            · intro htrue
              exact Bool.noConfusion htrue
            · intro _
              refine ⟨rfl, ?_, bs, sz, hnesz, by simp⟩
              intro hae
              have h1 : bs ∈ acc ++ [sz] := by rw [hacc]; simp
              have h2 : sz ∈ acc ++ [sz] := by simp
              exact hnesz (hae bs h1 sz h2)
          case neg =>
            rw [if_neg hne] at hstep
            have hsz : sz = bs := SvgSize.eq_of_dims hne
            have hcu : collectUnique
                { st with total := st.total + 1, base_size := some bs } sz
                = { st with total := st.total + 1, base_size := some bs } := by
              unfold collectUnique
              rw [if_neg (by simp [notRecorded, huniq, hsz])]
            rw [hcu] at hstep
            injection hstep with h
            subst h
            refine ⟨?_, fun _ => hkeep, ?_, ?_, ?_, ?_⟩
            · show some bs = (acc ++ [sz]).head?
              rw [hacc]
              rfl
            · intro _ b hb
              injection hb with hb
              show st.unique_sizes = [b]
              rw [huniq, hb]
            · intro hnone
              exact Option.noConfusion hnone
            · intro _ b hb a hmem
              injection hb with hb
              rcases List.mem_append.mp hmem with h | h
              · rw [hinv.uniform_all hall bs hbase a h]
                exact hb
              · simp at h
                rw [h, hsz]
                exact hb
            · intro hfalse
              have h0 : st.all_same = false := hfalse
              rw [hall] at h0
              exact Bool.noConfusion h0

/-- Walk loop preserves the invariant along the read trace. -/
theorem scanLoop_inv (entries : List FsEntry) :
    ∀ (st : ScanState) (acc : List SvgSize), ScanInv st acc →
      ∀ st2, scanLoop st entries = .ok st2 →
        ScanInv st2 (acc ++ parsedSizesFrom st entries) := by
  induction entries with
  | nil =>
    intro st acc hinv st2 hloop
    injection hloop with h
    subst h
    simp only [parsedSizesFrom, List.append_nil]
    exact hinv
  | cons e rest ih =>
    intro st acc hinv st2 hloop
    unfold scanLoop at hloop
    unfold parsedSizesFrom
    cases hstep : scanStep st e with
    | error msg =>
      rw [hstep] at hloop
      simp at hloop
    | ok stm =>
      rw [hstep] at hloop
      have hinv2 := scanStep_inv hinv hstep
      have hres := ih stm (acc ++ parsedHead st e) hinv2 st2 hloop
      rw [List.append_assoc] at hres
      exact hres

/-- Function `collectUnique` never changes `total`. -/
theorem collectUnique_total (s : ScanState) (z : SvgSize) :
    (collectUnique s z).total = s.total := by
  unfold collectUnique
  by_cases h1 : notRecorded s.unique_sizes z = true
  · rw [if_pos h1]
    by_cases h2 : 6 ≤ (s.unique_sizes ++ [z]).length
    · rw [if_pos h2]
      by_cases h3 : 1 < (s.unique_sizes ++ [z]).length
      · rw [if_pos h3]
      · rw [if_neg h3]
    · rw [if_neg h2]
  · rw [if_neg h1]

/-- One step adds one to `total` exactly for SVG file entries, no matter
which classification branch runs. -/
theorem scanStep_total {st : ScanState} {e : FsEntry} {st2 : ScanState}
    (hstep : scanStep st e = .ok st2) :
    st2.total = st.total + (if e.isFile ∧ is_svg e then 1 else 0) := by
  unfold scanStep at hstep
  by_cases hsvg : e.isFile ∧ is_svg e
  case neg =>
    rw [if_pos hsvg] at hstep
    injection hstep with h
    subst h
    rw [if_neg hsvg]
    omega
  case pos =>
    rw [if_neg (not_not_intro hsvg)] at hstep
    rw [if_pos hsvg]
    by_cases hkeep : st.keep_parsing = true
    case neg =>
      rw [if_pos hkeep] at hstep
      injection hstep with h
      subst h
      rfl
    case pos =>
      rw [if_neg (not_not_intro hkeep)] at hstep
      cases hdata : e.svgData with
      | error msg =>
        rw [hdata] at hstep
        simp at hstep
      | ok sz =>
        rw [hdata] at hstep
        cases hbase : st.base_size with
        | none =>
          simp only [hbase, Except.ok.injEq] at hstep
          subst hstep
          rw [collectUnique_total]
        | some bs =>
          simp only [hbase] at hstep
          by_cases hne : sz.width ≠ bs.width ∨ sz.height ≠ bs.height
          · rw [if_pos hne] at hstep
            injection hstep with h
            subst h
            rfl
          · rw [if_neg hne] at hstep
            injection hstep with h
            subst h
            rw [collectUnique_total]

/-- Counter `total` counts exactly the SVG files the walk visits. -/
theorem scanLoop_total (entries : List FsEntry) :
    ∀ st st2, scanLoop st entries = .ok st2 →
      st2.total = st.total + countSvg entries := by
  induction entries with
  | nil =>
    intro st st2 h
    injection h with h
    subst h
    simp [countSvg]
  | cons e rest ih =>
    intro st st2 hloop
    unfold scanLoop at hloop
    cases hstep : scanStep st e with
    | error msg =>
      rw [hstep] at hloop
      simp at hloop
    | ok stm =>
      rw [hstep] at hloop
      have h1 := scanStep_total hstep
      have h2 := ih stm st2 hloop
      by_cases hsvg : e.isFile ∧ is_svg e
      · have hb : (e.isFile && is_svg e) = true := by
          simp [hsvg.1, hsvg.2]
        have hc : countSvg (e :: rest) = countSvg rest + 1 := by
          simp [countSvg, List.filter_cons, hb]
        rw [h2, h1, if_pos hsvg, hc]
        omega
      · have hb : (e.isFile && is_svg e) = false := by
          cases hf : e.isFile <;> cases hs : is_svg e <;> simp_all
        have hc : countSvg (e :: rest) = countSvg rest := by
          simp [countSvg, List.filter_cons, hb]
        rw [h2, h1, if_neg hsvg, hc]
        omega

/-- C4: for every directory tree, a successful scan reports `allSame = true`
exactly when every SVG whose size it actually parsed shares one size,
and `total` equals the number of files with a case-insensitive `.svg`
extension even though parsing stops early; in the 50-50, 60-60, third-
file scenario the report is `total = 3`, `allSame = false`,
`uniqueSizes` holding exactly those two sizes, with the third file
counted but never parsed (its read outcome is an error, so a successful
scan can only have skipped it). -/
theorem c4_scan (entries : List FsEntry) (info : FolderSizeInfo) :
    (scan_svg_folder_sizes true entries = .ok info →
      (info.all_same = true ↔ allEqual (parsedSizes entries)) ∧
      info.total = countSvg entries) ∧
    (scan_svg_folder_sizes true scenarioEntries = .ok scenarioInfo ∧
     parsedSizes scenarioEntries = [⟨50, 50⟩, ⟨60, 60⟩]) := by
  constructor
  · intro hok
    unfold scan_svg_folder_sizes at hok
    rw [if_neg (by simp)] at hok
    cases hloop : scanLoop initScanState entries with
    | error msg =>
      rw [hloop] at hok
      simp at hok
    | ok st =>
      rw [hloop] at hok
      simp only [Except.ok.injEq] at hok
      subst hok
      have hinv : ScanInv st (parsedSizes entries) := by
        have h := scanLoop_inv entries initScanState [] scanInv_init st hloop
        simpa [parsedSizes] using h
      constructor
      · show st.all_same = true ↔ allEqual (parsedSizes entries)
        constructor
        · intro htrue a ha b hb
          cases hpl : parsedSizes entries with
          | nil =>
            rw [hpl] at ha
            simp at ha
          | cons x t =>
            have hbase : st.base_size = some x := by
              rw [hinv.base_head, hpl]
              rfl
            have h1 := hinv.uniform_all htrue x hbase a ha
            have h2 := hinv.uniform_all htrue x hbase b hb
            rw [h1, h2]
        · intro hae
          cases hallc : st.all_same with
          | true => rfl
          | false => exact absurd hae (hinv.nonuniform hallc).2.1
      · show st.total = countSvg entries
        have h := scanLoop_total entries initScanState st hloop
        simpa [initScanState] using h
  · exact ⟨rfl, rfl⟩

/-- Witness for C4: the concrete scenario report is non-uniform (its parsed
sizes are not all equal) and its total counts all three files. -/
theorem c4_scan_witness :
    (scenarioInfo.all_same = true ↔ allEqual (parsedSizes scenarioEntries)) ∧
    scenarioInfo.total = countSvg scenarioEntries :=
  (c4_scan scenarioEntries scenarioInfo).1 rfl

/-- C9: a successful scan returns at most two unique sizes - the base and at
most the first differing size - the uniform case returning exactly the
base (and the empty list when nothing was parsed); and at every prefix
of the walk the collected unique list has at most 2 entries, so the
early-stop branch guarded by 6 collected sizes (`6 <= length + 1` after
a push) is never reached. -/
theorem c9_unique_sizes (entries : List FsEntry) :
    (∀ info, scan_svg_folder_sizes true entries = .ok info →
      info.unique_sizes.length ≤ 2 ∧
      (info.all_same = true →
        (∀ bs, info.base_size = some bs → info.unique_sizes = [bs]) ∧
        (info.base_size = none → info.unique_sizes = []))) ∧
    (∀ n st, scanLoop initScanState (entries.take n) = .ok st →
      st.unique_sizes.length ≤ 2 ∧ ¬ 6 ≤ st.unique_sizes.length + 1) := by
  constructor
  · intro info hok
    unfold scan_svg_folder_sizes at hok
    rw [if_neg (by simp)] at hok
    cases hloop : scanLoop initScanState entries with
    | error msg =>
      rw [hloop] at hok
      simp at hok
    | ok st =>
      rw [hloop] at hok
      simp only [Except.ok.injEq] at hok
      subst hok
      have hinv : ScanInv st (parsedSizes entries) := by
        have h := scanLoop_inv entries initScanState [] scanInv_init st hloop
        simpa [parsedSizes] using h
      cases hallc : st.all_same with
      | true =>
        cases hbase : st.base_size with
        | none =>
          obtain ⟨hu, _⟩ := hinv.base_none hbase
          refine ⟨?_, fun _ => ⟨?_, fun _ => ?_⟩⟩
          · simp only [hallc, hbase, hu]
            simp
          · intro bs hbs
            exact Option.noConfusion hbs
          · simp only [hallc, hbase, hu]
            simp
        | some bs =>
          have hu := hinv.uniform_unique hallc bs hbase
          refine ⟨?_, fun _ => ⟨?_, ?_⟩⟩
          · simp only [hallc, hbase, hu]
            simp
          · intro b hb
            injection hb with hb
            subst hb
            simp only [hallc, hbase, hu]
            simp
          · intro h0
            exact Option.noConfusion h0
      | false =>
        obtain ⟨_, _, a, b, hne, hu⟩ := hinv.nonuniform hallc
        refine ⟨?_, ?_⟩
        · simp only [hallc, hu]
          simp
        · intro h0
          exact Bool.noConfusion h0
  · intro n st hloop
    have hinv : ScanInv st ([] ++ parsedSizesFrom initScanState (entries.take n)) :=
      scanLoop_inv (entries.take n) initScanState [] scanInv_init st hloop
    have hlen : st.unique_sizes.length ≤ 2 := by
      cases hallc : st.all_same with
      | true =>
        cases hbase : st.base_size with
        | none =>
          rw [(hinv.base_none hbase).1]
          simp
        | some bs =>
          rw [hinv.uniform_unique hallc bs hbase]
          simp
      | false =>
        obtain ⟨_, _, a, b, _, hu⟩ := hinv.nonuniform hallc
        rw [hu]
        simp
    exact ⟨hlen, by omega⟩

/-- Witness for C9: the scenario report has two unique sizes, and the loop
state after all three scenario entries keeps the bound that makes the
6-size branch unreachable. -/
theorem c9_unique_sizes_witness :
    (scenarioInfo.unique_sizes.length ≤ 2 ∧
      (scenarioInfo.all_same = true →
        (∀ bs, scenarioInfo.base_size = some bs →
          scenarioInfo.unique_sizes = [bs]) ∧
        (scenarioInfo.base_size = none → scenarioInfo.unique_sizes = []))) ∧
    scanState3.unique_sizes.length ≤ 2 ∧
    ¬ 6 ≤ scanState3.unique_sizes.length + 1 :=
  ⟨(c9_unique_sizes scenarioEntries).1 scenarioInfo rfl,
   (c9_unique_sizes scenarioEntries).2 3 scanState3 rfl⟩

/-- Every item is counted in exactly one of the two counters. -/
theorem okCount_add_failCount (items : List BatchItem) :
    okCount items + failCount items = items.length := by
  induction items with
  | nil => simp [okCount, failCount]
  | cons it rest ih =>
    cases hres : it.result with
    | ok v =>
      have h1 : okCount (it :: rest) = okCount rest + 1 := by
        simp [okCount, List.filter_cons, hres]
      have h2 : failCount (it :: rest) = failCount rest := by
        simp [failCount, List.filter_cons, hres]
      rw [h1, h2, List.length_cons]
      omega
    | error e =>
      have h1 : okCount (it :: rest) = okCount rest := by
        simp [okCount, List.filter_cons, hres]
      have h2 : failCount (it :: rest) = failCount rest + 1 := by
        simp [failCount, List.filter_cons, hres]
      rw [h1, h2, List.length_cons]
      omega

/-- Final counters of the loop add the per-outcome counts to the running
counters, and the loop emits exactly two events per item - a per-item
failure never aborts it. -/
theorem batchLoop_counts (total : ℕ) :
    ∀ (items : List BatchItem) (i ok failed : ℕ),
      (batchLoop total items i ok failed).1 = ok + okCount items ∧
      (batchLoop total items i ok failed).2.1 = failed + failCount items ∧
      (batchLoop total items i ok failed).2.2.length = 2 * items.length := by
  intro items
  induction items with
  | nil =>
    intro i ok failed
    simp [batchLoop, okCount, failCount]
  | cons it rest ih =>
    intro i ok failed
    cases hres : it.result with
    | ok v =>
      obtain ⟨png, w, h⟩ := v
      have hrec := ih (i + 1) (ok + 1) failed
      have hoc : okCount (it :: rest) = okCount rest + 1 := by
        simp [okCount, List.filter_cons, hres]
      have hfc : failCount (it :: rest) = failCount rest := by
        simp [failCount, List.filter_cons, hres]
      simp only [batchLoop, hres]
      refine ⟨?_, ?_, ?_⟩
      · rw [hrec.1, hoc]
        omega
      · rw [hrec.2.1, hfc]
      · simp only [List.length_cons]
        rw [hrec.2.2]
        omega
    | error err =>
      have hrec := ih (i + 1) ok (failed + 1)
      have hoc : okCount (it :: rest) = okCount rest := by
        simp [okCount, List.filter_cons, hres]
      have hfc : failCount (it :: rest) = failCount rest + 1 := by
        simp [failCount, List.filter_cons, hres]
      simp only [batchLoop, hres]
      refine ⟨?_, ?_, ?_⟩
      · rw [hrec.1, hoc]
      · rw [hrec.2.1, hfc]
        omega
      · simp only [List.length_cons]
        rw [hrec.2.2]
        omega

/-- After the k-th item (0-based) the loop emits a done progress event whose
counters are the running counters plus the outcome counts of the first
k+1 items. -/
theorem batchLoop_done (total : ℕ) :
    ∀ (items : List BatchItem) (k : ℕ), k < items.length →
      ∀ i ok failed, ∃ svg,
        (batchLoop total items i ok failed).2.2.get? (2 * k + 1) =
          some (BatchEvent.progress "done" (i + k + 1) none total
            (ok + okCount (items.take (k + 1)))
            (failed + failCount (items.take (k + 1))) (some svg)) := by
  intro items
  induction items with
  | nil =>
    intro k hk
    simp at hk
  | cons it rest ih =>
    intro k hk i ok failed
    cases k with
    | zero =>
      cases hres : it.result with
      | ok v =>
        obtain ⟨png, w, h⟩ := v
        refine ⟨it.path, ?_⟩
        simp [batchLoop, hres, okCount, failCount, List.filter_cons]
      | error err =>
        refine ⟨it.path, ?_⟩
        simp [batchLoop, hres, okCount, failCount, List.filter_cons]
    | succ k =>
      have hk2 : k < rest.length := Nat.lt_of_succ_lt_succ (by simpa using hk)
      cases hres : it.result with
      | ok v =>
        obtain ⟨png, w, h⟩ := v
        obtain ⟨svg, hsvg⟩ := ih k hk2 (i + 1) (ok + 1) failed
        refine ⟨svg, ?_⟩
        simp only [batchLoop, hres]
        rw [show 2 * (k + 1) + 1 = (2 * k + 1) + 1 + 1 by ring]
        rw [List.get?_cons_succ, List.get?_cons_succ]
        rw [hsvg]
        have hoc : okCount ((it :: rest).take (k + 1 + 1))
            = okCount (rest.take (k + 1)) + 1 := by
          rw [List.take_succ_cons]
          simp [okCount, List.filter_cons, hres]
        have hfc : failCount ((it :: rest).take (k + 1 + 1))
            = failCount (rest.take (k + 1)) := by
          rw [List.take_succ_cons]
          simp [failCount, List.filter_cons, hres]
        rw [hoc, hfc]
        congr 2
        · omega
        · omega
      | error err =>
        obtain ⟨svg, hsvg⟩ := ih k hk2 (i + 1) ok (failed + 1)
        refine ⟨svg, ?_⟩
        simp only [batchLoop, hres]
        rw [show 2 * (k + 1) + 1 = (2 * k + 1) + 1 + 1 by ring]
        rw [List.get?_cons_succ, List.get?_cons_succ]
        rw [hsvg]
        have hoc : okCount ((it :: rest).take (k + 1 + 1))
            = okCount (rest.take (k + 1)) := by
          rw [List.take_succ_cons]
          simp [okCount, List.filter_cons, hres]
        have hfc : failCount ((it :: rest).take (k + 1 + 1))
            = failCount (rest.take (k + 1)) + 1 := by
          rw [List.take_succ_cons]
          simp [failCount, List.filter_cons, hres]
        rw [hoc, hfc]
        congr 2
        · omega
        · omega

/-- C5: for every batch run that returns, the summary satisfies ok + failed
= total; the loop runs to completion emitting exactly one item event and
one done progress event per item after the single start event, so a per-
item conversion failure never aborts the run; and the done progress
event emitted after the k-th item (0-based, at position 2k+2 of the
event stream) carries counters - each item having incremented exactly
one of the two - that sum to k+1. -/
theorem c5_batch (req : ConvertRequest) (input_paths : Option (List String))
    (env : BatchEnv) (summary : ConvertSummary) (events : List BatchEvent)
    (hok : convert_svg_to_png req input_paths env = .ok (summary, events)) :
    summary.ok + summary.failed = summary.total ∧
    events.length = 2 * summary.total + 1 ∧
    (∀ k, k < summary.total → ∃ okk failedk svg,
      events.get? (2 * k + 2) =
        some (BatchEvent.progress "done" (k + 1) none summary.total
          okk failedk (some svg)) ∧
      okk + failedk = k + 1) := by
  unfold convert_svg_to_png at hok
  by_cases h1 : req.input_mode = "folder" ∧ env.inputIsDir = false
  · rw [if_pos h1] at hok
    exact absurd hok (by simp)
  rw [if_neg h1] at hok
  by_cases h2 : bgInvalid req.background = true
  · rw [if_pos h2] at hok
    exact absurd hok (by simp)
  rw [if_neg h2] at hok
  cases hres : resolveInputs req input_paths env with
  | error e =>
    rw [hres] at hok
    simp at hok
  | ok svgs =>
    rw [hres] at hok
    simp only [Except.ok.injEq, Prod.mk.injEq] at hok
    obtain ⟨hsum, hev⟩ := hok
    subst hsum
    subst hev
    have hlen : (svgs.map fun p => BatchItem.mk p (env.render p)).length
        = svgs.length := by simp
    have hc := batchLoop_counts svgs.length
      (svgs.map fun p => BatchItem.mk p (env.render p)) 0 0 0
    refine ⟨?_, ?_, ?_⟩
    · show (batchLoop _ _ 0 0 0).1 + (batchLoop _ _ 0 0 0).2.1 = svgs.length
      rw [hc.1, hc.2.1]
      have hof := okCount_add_failCount
        (svgs.map fun p => BatchItem.mk p (env.render p))
      omega
    · show (_ :: (batchLoop _ _ 0 0 0).2.2).length = 2 * svgs.length + 1
      rw [List.length_cons, hc.2.2, hlen]
    · intro k hk
      obtain ⟨svg, hsvg⟩ := batchLoop_done svgs.length
        (svgs.map fun p => BatchItem.mk p (env.render p)) k
        (by rw [hlen]; exact hk) 0 0 0
      refine ⟨okCount ((svgs.map fun p => BatchItem.mk p (env.render p)).take (k + 1)),
              failCount ((svgs.map fun p => BatchItem.mk p (env.render p)).take (k + 1)),
              svg, ?_, ?_⟩
      · show (_ :: (batchLoop _ _ 0 0 0).2.2).get? (2 * k + 2) = _
        rw [show 2 * k + 2 = (2 * k + 1) + 1 by ring, List.get?_cons_succ]
        simpa using hsvg
      · have hk2 : k < svgs.length := hk
        have hof := okCount_add_failCount
          ((svgs.map fun p => BatchItem.mk p (env.render p)).take (k + 1))
        rw [List.length_take, hlen] at hof
        omega

/-- Witness for C5: a concrete two-item batch (one success, one failure)
satisfies ok + failed = total with the full event stream. -/
theorem c5_batch_witness :
    summaryTwo.ok + summaryTwo.failed = summaryTwo.total ∧
    eventsTwo.length = 2 * summaryTwo.total + 1 ∧
    (∀ k, k < summaryTwo.total → ∃ okk failedk svg,
      eventsTwo.get? (2 * k + 2) =
        some (BatchEvent.progress "done" (k + 1) none summaryTwo.total
          okk failedk (some svg)) ∧
      okk + failedk = k + 1) :=
  c5_batch reqTwo (some ["a.svg", "b.svg"]) envTwo summaryTwo eventsTwo rfl

/-- C10: a folder-mode conversion over an existing directory containing no
files with an `.svg` extension succeeds, emits only the start progress
event, and returns the summary total=0, ok=0, failed=0. -/
theorem c10_empty_folder (req : ConvertRequest)
    (input_paths : Option (List String)) (env : BatchEnv)
    (hmode : req.input_mode = "folder") (hdir : env.inputIsDir = true)
    (hbg : bgInvalid req.background = false)
    (hwalk : ∀ e ∈ env.walk, ¬(e.isFile && extIsSvg e.ext) = true) :
    convert_svg_to_png req input_paths env =
      .ok (⟨0, 0, 0⟩, [BatchEvent.progress "start" 0 none 0 0 0 none]) := by
  unfold convert_svg_to_png
  rw [if_neg fun hc => by rw [hdir] at hc; exact Bool.noConfusion hc.2]
  rw [if_neg (by rw [hbg]; simp)]
  have hres : resolveInputs req input_paths env = .ok [] := by
    unfold resolveInputs
    rw [if_pos hmode]
    have hfil : env.walk.filter (fun e => e.isFile && extIsSvg e.ext) = [] :=
      List.filter_eq_nil_iff.mpr hwalk
    rw [hfil]
    simp [sortStrings]
  rw [hres]
  rfl

/-- Witness for C10: the concrete SVG-free directory yields the empty
summary and only the start event. -/
theorem c10_empty_folder_witness :
    convert_svg_to_png reqFolder none envNoSvg =
      .ok (⟨0, 0, 0⟩, [BatchEvent.progress "start" 0 none 0 0 0 none]) :=
  c10_empty_folder reqFolder none envNoSvg rfl rfl rfl (by decide)

/-- C6 counterexample: in single/multi-file mode (no batch root) with an
output directory, a source lying in a folder named icons resolves to
`icons_a_10x10.png`, not the claimed plain `a_10x10.png`: the code
prepends the parent folder name in that mode too. -/
theorem c6_counterexample :
    make_output_path ⟨["home", "icons"], "a.svg"⟩ none (some ["out"]) 10 10
      = ⟨["out"], "icons_a_10x10.png"⟩ ∧
    "icons_a_10x10.png" ≠ "a_10x10.png" := by
  constructor
  · rfl
  · decide

/-- C6 (amended): the resolved output is placed in the output directory when
one is given and otherwise in the source directory; the file name is
`<stem>_<w>x<h>.png`, prepended in folder mode with the relative parent
segments joined by `_` when the source lies in a subdirectory of the
batch root, and prepended in file mode - when an output directory is
given and the source has a named parent folder - with the name of that
parent folder. -/
theorem c6_amended (svg : RPath) (root : Option (List String))
    (out_dir : Option (List String)) (w h : ℕ) (hname : svg.fileName ≠ "") :
    ((make_output_path svg root out_dir w h).dirs
        = match out_dir with
          | some d => d
          | none => svg.dirs) ∧
    (∀ r, root = some r → svg.dirs.take r.length = r →
      String.intercalate "_" (svg.dirs.drop r.length) ≠ "" →
      String.intercalate "_" (svg.dirs.drop r.length) ≠ "." →
      (make_output_path svg root out_dir w h).fileName
        = String.intercalate "_" (svg.dirs.drop r.length) ++ "_"
          ++ pngName (file_stem svg.fileName) w h) ∧
    (∀ r, root = some r → svg.dirs.take r.length = r →
      svg.dirs.drop r.length = [] →
      (make_output_path svg root out_dir w h).fileName
        = pngName (file_stem svg.fileName) w h) ∧
    (root = none → ∀ d, out_dir = some d →
      ∀ pn, svg.dirs.getLast? = some pn → pn ≠ "" →
      (make_output_path svg root out_dir w h).fileName
        = pn ++ "_" ++ pngName (file_stem svg.fileName) w h) ∧
    (root = none → out_dir = none →
      (make_output_path svg root out_dir w h).fileName
        = pngName (file_stem svg.fileName) w h) := by
  have hstem : stemOr svg.fileName = file_stem svg.fileName := by
    unfold stemOr
    rw [if_neg hname]
  refine ⟨?_, ?_, ?_, ?_, ?_⟩
  · unfold make_output_path
    cases out_dir <;> rfl
  · intro r hr htake hne hnd
    subst hr
    cases out_dir <;> simp [make_output_path, hstem, htake, hne, hnd]
  · intro r hr htake hdrop
    subst hr
    have hnil : String.intercalate "_" ([] : List String) = "" := rfl
    cases out_dir <;> simp [make_output_path, hstem, htake, hdrop, hnil]
  · intro hr d hd pn hpn hpnne
    subst hr
    subst hd
    simp [make_output_path, hstem, hpn, hpnne]
  · intro hr hd
    subst hr
    subst hd
    simp [make_output_path, hstem]

/-- Witness for the amended C6: a nested source under a batch root with an
output directory gets the joined relative prefix and lands in the output
directory; a lone file with no output directory keeps the plain name
alongside its source. -/
theorem c6_amended_witness :
    (make_output_path ⟨["root", "icons"], "a.svg"⟩ (some ["root"])
        (some ["out"]) 10 10).fileName = "icons_a_10x10.png" ∧
    (make_output_path ⟨["root", "icons"], "a.svg"⟩ (some ["root"])
        (some ["out"]) 10 10).dirs = ["out"] ∧
    (make_output_path ⟨["d"], "b.svg"⟩ none none 5 6).fileName
      = "b_5x6.png" ∧
    (make_output_path ⟨["d"], "b.svg"⟩ none none 5 6).dirs = ["d"] := by
  have h1 := c6_amended ⟨["root", "icons"], "a.svg"⟩ (some ["root"])
    (some ["out"]) 10 10 (by decide)
  have h2 := c6_amended ⟨["d"], "b.svg"⟩ none none 5 6 (by decide)
  refine ⟨?_, ?_, ?_, ?_⟩
  · rw [h1.2.1 ["root"] rfl rfl (by decide) (by decide)]
    rfl
  · rw [h1.1]
  · rw [h2.2.2.2.2 rfl rfl]
    rfl
  · rw [h2.1]

end SvgToPng
